import Mathlib

/-!
# Formal model of the r-auth TOTP authenticator

A shallow embedding of the r-auth repository (src/totp.rs, src/crypto.rs,
src/authenticator.rs, src/error.rs) together with theorems settling the
claims of the specification.

Bytes are modelled as `Nat` values below 256 (`List Nat` for byte strings);
machine-integer overflow is made explicit with `% 2 ^ 32`, `% 256` and so on,
exactly where the Rust code's fixed-width types wrap or where masks in the
source keep values in range.
-/

set_option maxRecDepth 100000

/-! ## Byte-level utilities -/

/-- The bytes of a string, one `Nat` per character code point.  The secrets
and vectors in this development are ASCII, where this agrees with UTF-8. -/
def strBytes (s : String) : List Nat := s.data.map Char.toNat

/-- `n.to_be_bytes()` for a Rust `u64`: 8 bytes, big-endian. -/
def u64be (n : Nat) : List Nat :=
  [(n >>> 56) % 256, (n >>> 48) % 256, (n >>> 40) % 256, (n >>> 32) % 256,
   (n >>> 24) % 256, (n >>> 16) % 256, (n >>> 8) % 256, n % 256]

/-- Big-endian 4-byte serialization of a 32-bit word. -/
def word32bytes (w : Nat) : List Nat :=
  [(w >>> 24) % 256, (w >>> 16) % 256, (w >>> 8) % 256, w % 256]

/-- Big-endian 32-bit word from 4 bytes (missing bytes read as 0). -/
def word32be (b : List Nat) : Nat :=
  b.getD 0 0 * 2 ^ 24 + b.getD 1 0 * 2 ^ 16 + b.getD 2 0 * 2 ^ 8 + b.getD 3 0

/-- Split a list into consecutive chunks of `n` elements (the last chunk may
be shorter), as Rust's `slice::chunks`. -/
def chunksOf (n : Nat) (l : List α) : List (List α) :=
  (List.range ((l.length + n - 1) / n)).map (fun i => (l.drop (n * i)).take n)

/-- Left rotation of a 32-bit word by `n` bits. -/
def rotl32 (n x : Nat) : Nat := ((x <<< n) ||| (x >>> (32 - n))) % 2 ^ 32

/-! ## SHA-1 (FIPS 180-1), as used by the `sha1` crate -/

/-- SHA-1 round function `f_i(b, c, d)`. -/
def sha1f (i b c d : Nat) : Nat :=
  if i < 20 then (b &&& c) ||| ((b ^^^ 0xffffffff) &&& d)
  else if i < 40 then b ^^^ c ^^^ d
  else if i < 60 then (b &&& c) ||| (b &&& d) ||| (c &&& d)
  else b ^^^ c ^^^ d

/-- SHA-1 round constant `K_i`. -/
def sha1k (i : Nat) : Nat :=
  if i < 20 then 0x5a827999
  else if i < 40 then 0x6ed9eba1
  else if i < 60 then 0x8f1bbcdc
  else 0xca62c1d6

/-- The five 32-bit words of SHA-1 working state. -/
structure Sha1State where
  a : Nat
  b : Nat
  c : Nat
  d : Nat
  e : Nat

/-- Message-schedule expansion: extend the 16 block words to 80 words,
`W_i = rotl1 (W_(i-3) xor W_(i-8) xor W_(i-14) xor W_(i-16))`. -/
def sha1expand (w : List Nat) : List Nat :=
  (List.range 64).foldl
    (fun acc _ =>
      let n := acc.length
      acc ++ [rotl32 1 ((acc.getD (n - 3) 0) ^^^ (acc.getD (n - 8) 0) ^^^
                        (acc.getD (n - 14) 0) ^^^ (acc.getD (n - 16) 0))])
    w

/-- One SHA-1 round: rotate the working state through `f`, `K` and the
schedule word, all sums reduced mod `2 ^ 32`. -/
def sha1round (st : Sha1State) (iw : Nat × Nat) : Sha1State :=
  let t := (rotl32 5 st.a + sha1f iw.1 st.b st.c st.d + st.e + sha1k iw.1 + iw.2) % 2 ^ 32
  ⟨t, st.a, rotl32 30 st.b, st.c, st.d⟩

/-- Compress one 64-byte block into the chaining state. -/
def sha1block (h : Sha1State) (block : List Nat) : Sha1State :=
  let ws := sha1expand ((chunksOf 4 block).map word32be)
  let st := ((List.range 80).zip ws).foldl sha1round h
  ⟨(h.a + st.a) % 2 ^ 32, (h.b + st.b) % 2 ^ 32, (h.c + st.c) % 2 ^ 32,
   (h.d + st.d) % 2 ^ 32, (h.e + st.e) % 2 ^ 32⟩

/-- SHA-1 padding: append `0x80`, zeros to 56 mod 64, then the bit length as
an 8-byte big-endian integer. -/
def sha1pad (msg : List Nat) : List Nat :=
  let len := msg.length
  msg ++ [0x80] ++ List.replicate ((119 - len % 64) % 64) 0 ++ u64be (len * 8)

/-- SHA-1 of a byte string: always a 20-byte digest. -/
def sha1 (msg : List Nat) : List Nat :=
  let h := (chunksOf 64 (sha1pad msg)).foldl sha1block
    ⟨0x67452301, 0xefcdab89, 0x98badcfe, 0x10325476, 0xc3d2e1f0⟩
  word32bytes h.a ++ word32bytes h.b ++ word32bytes h.c ++ word32bytes h.d ++ word32bytes h.e

/-! ## HMAC-SHA1 (RFC 2104), as used by the `hmac` crate

`Hmac::<Sha1>::new_from_slice` accepts keys of every length (a key longer
than the 64-byte block is first hashed) and never returns `InvalidLength`
for a SHA-1 block size, so the model is total. -/

/-- HMAC-SHA1 of `msg` under `key`. -/
def hmacSha1 (key msg : List Nat) : List Nat :=
  let k0 := if 64 < key.length then sha1 key else key
  let k := k0 ++ List.replicate (64 - k0.length) 0
  let ipad := k.map (fun b => b ^^^ 0x36)
  let opad := k.map (fun b => b ^^^ 0x5c)
  sha1 (opad ++ sha1 (ipad ++ msg))

/-! ## Base32 (RFC 4648), as implemented by the `base32` crate

`base32::decode(Alphabet::RFC4648 { padding: true }, _)` is modelled exactly
as the crate implements it: the whole input must be ASCII; each character is
ASCII-uppercased, `b'0'` is subtracted with `u8` wrapping, and the result
indexes the crate's 43-entry inverse alphabet (`'2'..'7'` map to `26..31`,
`'='` maps to `0`, `'A'..'Z'` map to `0..25`, everything else is rejected);
the input is processed in chunks of 8 characters zero-filled on the right,
each yielding 5 bytes with `u8`-wrapping shifts; finally the output is
truncated to `(len - trailing pad, at most 6) * 5 / 8` bytes.  Note the
crate does not validate padding position or length. -/

/-- The crate's `RFC4648_INV_ALPHABET` lookup: index is `uppercased byte -
b'0'` (wrapping); `none` models both `-1` entries and out-of-range. -/
def b32invVal (i : Nat) : Option Nat :=
  if 2 ≤ i ∧ i ≤ 7 then some (i + 24)
  else if i = 13 then some 0
  else if 17 ≤ i ∧ i ≤ 42 then some (i - 17)
  else none

/-- The 5-bit value of one Base32 character, per the crate's decoder. -/
def b32charVal (c : Char) : Option Nat :=
  let b := c.toNat
  let up := if 97 ≤ b ∧ b ≤ 122 then b - 32 else b
  b32invVal ((up + 208) % 256)

/-- Decode one chunk of up to 8 quintets into 5 bytes (`u8` wrapping). -/
def b32decodeChunk (q : List Nat) : List Nat :=
  let b := fun i => q.getD i 0
  [((b 0 <<< 3) ||| (b 1 >>> 2)) % 256,
   ((b 1 <<< 6) ||| (b 2 <<< 1) ||| (b 3 >>> 4)) % 256,
   ((b 3 <<< 4) ||| (b 4 >>> 1)) % 256,
   ((b 4 <<< 7) ||| (b 5 <<< 2) ||| (b 6 >>> 3)) % 256,
   ((b 6 <<< 5) ||| b 7) % 256]

/-- Number of trailing `'='` characters. -/
def countTrailingPad (l : List Char) : Nat :=
  (l.reverse.takeWhile (fun c => c == '=')).length

/-- `base32::decode(Alphabet::RFC4648 { padding: true }, s)`. -/
def b32decode (s : String) : Option (List Nat) :=
  let l := s.data
  if l.all (fun c => c.toNat ≤ 127) then
    match (chunksOf 8 l).mapM (fun ch => ch.mapM b32charVal) with
    | none => none
    | some qs =>
      let unpadded := l.length - min 6 (countTrailingPad l)
      some (((qs.map b32decodeChunk).flatten).take (unpadded * 5 / 8))
  else none

/-- The RFC 4648 Base32 alphabet. -/
def b32alphaChar (i : Nat) : Char := "ABCDEFGHIJKLMNOPQRSTUVWXYZ234567".data.getD i 'A'

/-- Encode one chunk of up to 5 bytes into 8 characters. -/
def b32encodeChunk (c : List Nat) : List Char :=
  let b := fun i => c.getD i 0
  [b32alphaChar ((b 0 &&& 0xf8) >>> 3),
   b32alphaChar (((b 0 &&& 0x07) <<< 2) ||| ((b 1 &&& 0xc0) >>> 6)),
   b32alphaChar ((b 1 &&& 0x3e) >>> 1),
   b32alphaChar (((b 1 &&& 0x01) <<< 4) ||| ((b 2 &&& 0xf0) >>> 4)),
   b32alphaChar (((b 2 &&& 0x0f) <<< 1) ||| (b 3 >>> 7)),
   b32alphaChar ((b 3 &&& 0x7c) >>> 2),
   b32alphaChar (((b 3 &&& 0x03) <<< 3) ||| ((b 4 &&& 0xe0) >>> 5)),
   b32alphaChar (b 4 &&& 0x1f)]

/-- `base32::encode(Alphabet::RFC4648 { padding: true }, data)`: full chunks
of 8 characters, the trailing `num_extra` characters replaced by `'='`. -/
def b32encode (data : List Nat) : String :=
  let full := ((chunksOf 5 data).map b32encodeChunk).flatten
  if data.length % 5 = 0 then ⟨full⟩
  else
    let extra := 8 - (data.length % 5 * 8 + 4) / 5
    ⟨full.take (full.length - extra) ++ List.replicate extra '='⟩

/-! ## The error type (src/error.rs)

`AuthError`, with `String` payloads standing for the wrapped error values.
(`Io` is rendered `IoError` here.)  The specification's abstract error names
map onto these constructors: `InvalidEncoding` is `Base32DecodeError`,
`EmptyName` is `InvalidSecret "Account name cannot be empty"`,
`IdentityAlreadyExists` is `KeyExists`. -/

inductive AuthError where
  | IoError (msg : String)
  | Json (msg : String)
  | Base32DecodeError
  | InvalidSecret (msg : String)
  | QrCode (msg : String)
  | Encryption (msg : String)
  | Decryption (msg : String)
  | KeyParse (msg : String)
  | KeyExists
  | ConfigDir
  | Age (msg : String)
  | StorageFile (msg : String)
  | KeyNotFound
  | InvalidStorage (msg : String)
  | Keyring (msg : String)
  deriving DecidableEq

deriving instance DecidableEq for Except

/-! ## The TOTP engine (src/totp.rs) -/

/-- The `TOTP` struct: decoded secret bytes, `digits = 6`, `interval = 30`. -/
structure TOTP where
  secret : List Nat
  digits : Nat
  interval : Nat
  deriving DecidableEq

/-- `TOTP::new`: Base32-decode the secret, or fail with `Base32DecodeError`. -/
def TOTP.new (secret : String) : Except AuthError TOTP :=
  match b32decode secret with
  | none => .error .Base32DecodeError
  | some bytes => .ok ⟨bytes, 6, 30⟩

/-- The decimal digit character for `n < 10`. -/
def decDigitChar (n : Nat) : Char := Char.ofNat (48 + n)

/-- Decimal digits of `n`, most significant first, with enough fuel;
structural recursion on the fuel so that the definition reduces. -/
def decReprAux : Nat → Nat → List Char
  | 0, _ => []
  | fuel + 1, n =>
    if n < 10 then [decDigitChar n]
    else decReprAux fuel (n / 10) ++ [decDigitChar (n % 10)]

/-- Decimal representation of a natural number, most significant digit
first, as Rust's `Display` for unsigned integers (`n + 1` is always enough
fuel, since `n / 10 < n` for `n ≥ 10`). -/
def decRepr (n : Nat) : List Char := decReprAux (n + 1) n

/-- Left-pad with `'0'` to width `w`, as `format!("{:0width$}", ..)`. -/
def zeroPad (w : Nat) (l : List Char) : List Char :=
  List.replicate (w - l.length) '0' ++ l

/-- `TOTP::generate`: HOTP on the 30-second counter — 8-byte big-endian
counter, HMAC-SHA1, RFC 4226 §5.4 dynamic truncation with the top bit
masked, then `mod 10^digits`, zero-padded.  Total: the only fallible step in
the source, `HmacSha1::new_from_slice`, accepts every key length. -/
def TOTP.generate (t : TOTP) (timestamp : Nat) : Except AuthError String :=
  let counter := timestamp / t.interval
  let counterBytes := u64be counter
  let codeBytes := hmacSha1 t.secret counterBytes
  let offset := (codeBytes.getD 19 0) &&& 0xf
  let code := ((codeBytes.getD offset 0 &&& 0x7f) <<< 24) |||
              ((codeBytes.getD (offset + 1) 0) <<< 16) |||
              ((codeBytes.getD (offset + 2) 0) <<< 8) |||
              (codeBytes.getD (offset + 3) 0)
  let code := code % 10 ^ t.digits
  .ok ⟨zeroPad t.digits (decRepr code)⟩

/-! ## The crypto engine (src/crypto.rs)

`Crypto` wires one OS keyring entry (a fixed service and user name) to the
`age` crate's single-recipient X25519 encryption.  The `age` primitives are
kept abstract: scalars, points and symmetric keys are `Nat` codes, and an
`AgePrim` carries as proof fields exactly the two contracts the `age` crate
provides — X25519 Diffie-Hellman commutativity (RFC 7748) and AEAD
round-trip correctness.  What stays concrete is the part src/crypto.rs
itself contributes: both operations load the key from the same keyring
entry, `encrypt` uses the identity's public half (`key.to_public()`) as the
sole recipient, `decrypt` decrypts with its private half. -/

/-- Abstract `age` primitives with their contracts. -/
structure AgePrim where
  dh : Nat → Nat → Nat
  base : Nat
  wrapKey : Nat → Nat → Nat → Nat
  aeadSeal : Nat → List Nat → List Nat
  aeadOpen : Nat → List Nat → Option (List Nat)
  aead_round : ∀ k m, aeadOpen k (aeadSeal k m) = some m
  dh_comm : ∀ a b, dh a (dh b base) = dh b (dh a base)

/-- The OS credential store entry for the fixed `(service, username)` pair:
`entry` is the stored serialized identity (absent when no identity exists),
`setOk` whether a `set_password` call would succeed. -/
structure Keyring where
  entry : Option String
  setOk : Bool
  deriving DecidableEq

/-- `age` encryption to a single X25519 recipient: an ephemeral share
`dh eph base`, a shared secret `dh eph recipient`, a file key derived from
the shared secret and both public values, and the sealed payload.  The
ciphertext is serialized as a token list headed by the ephemeral share (a
real age file always carries this header; it is never empty). -/
def ageEncrypt (P : AgePrim) (recipient eph : Nat) (data : List Nat) : List Nat :=
  let epk := P.dh eph P.base
  let shared := P.dh eph recipient
  epk :: P.aeadSeal (P.wrapKey shared epk recipient) data

/-- `age` decryption with one X25519 identity: recompute the shared secret
from the ephemeral share, re-derive the file key, and open the payload;
fails on a malformed header or an AEAD authentication failure. -/
def ageDecrypt (P : AgePrim) (ident : Nat) (ct : List Nat) : Option (List Nat) :=
  match ct with
  | [] => none
  | epk :: body =>
    let shared := P.dh ident epk
    P.aeadOpen (P.wrapKey shared epk (P.dh ident P.base)) body

/-- Ambient crypto context: the `age` primitives, the keyring state, the
parser for the serialized identity, and the ephemeral randomness the next
encryption will draw. -/
structure CryptoCtx where
  prim : AgePrim
  kr : Keyring
  parseId : String → Option Nat
  eph : Nat

/-- `Crypto::load_key`: read the keyring entry and parse it as an identity. -/
def Crypto.load_key (c : CryptoCtx) : Except AuthError Nat :=
  match c.kr.entry with
  | none => .error (.Keyring "NoEntry")
  | some s =>
    match c.parseId s with
    | none => .error (.KeyParse "invalid identity")
    | some ident => .ok ident

/-- `Crypto::key_exists`: whether retrieving the entry succeeds. -/
def Crypto.key_exists (c : CryptoCtx) : Bool := c.kr.entry.isSome

/-- `Crypto::encrypt`: load the identity, encrypt to its public half. -/
def Crypto.encrypt (c : CryptoCtx) (data : List Nat) : Except AuthError (List Nat) :=
  match Crypto.load_key c with
  | .error e => .error e
  | .ok key => .ok (ageEncrypt c.prim (c.prim.dh key c.prim.base) c.eph data)

/-- `Crypto::decrypt`: load the identity, decrypt with its private half. -/
def Crypto.decrypt (c : CryptoCtx) (enc : List Nat) : Except AuthError (List Nat) :=
  match Crypto.load_key c with
  | .error e => .error e
  | .ok key =>
    match ageDecrypt c.prim key enc with
    | none => .error (.Decryption "failed")
    | some pt => .ok pt

/-- `Crypto::init`: fail with `KeyExists` when the entry is already
retrievable; otherwise generate a fresh identity (`genKey`, the model's
stand-in for `Identity::generate()`) and store its serialized form. -/
def Crypto.init (kr : Keyring) (genKey : String) : Except AuthError Unit × Keyring :=
  match kr.entry with
  | some _ => (.error .KeyExists, kr)
  | none =>
    if kr.setOk then (.ok (), { kr with entry := some genKey })
    else (.error (.Keyring "set_password failed"), kr)

/-! ## The secret vault (src/authenticator.rs)

The `HashMap<String, String>` is modelled as an association list with
unique keys and `List.lookup`; the backing file as `Option (List Nat)`
(`none` when no file exists at the storage path).  `serde_json`
serialization, its parser and UTF-8 decoding are parameters of the
environment: the claims under verification do not depend on the
serialization format, only on when it is (not) invoked. -/

/-- Rust's `char::is_whitespace`: the Unicode White_Space property --
U+0009..U+000D, U+0020, U+0085, U+00A0, U+1680, U+2000..U+200A, U+2028,
U+2029, U+202F, U+205F and U+3000. -/
def rustIsWhitespace (c : Char) : Bool :=
  let n := c.toNat
  if (9 ≤ n ∧ n ≤ 13) ∨ n = 0x20 ∨ n = 0x85 ∨ n = 0xa0 ∨ n = 0x1680 ∨
     (0x2000 ≤ n ∧ n ≤ 0x200a) ∨ n = 0x2028 ∨ n = 0x2029 ∨ n = 0x202f ∨
     n = 0x205f ∨ n = 0x3000 then true else false

/-- `name.trim().is_empty()` from the source: `str::trim` strips Unicode
White_Space from both ends, so the trimmed string is empty exactly when
every character has the White_Space property. -/
def trimIsEmpty (s : String) : Bool := s.data.all rustIsWhitespace

/-- Ambient environment of a vault operation. -/
structure Env where
  c : CryptoCtx
  ser : List (String × String) → String
  deser : String → Option (List (String × String))
  utf8Dec : List Nat → Option String
  canWrite : Bool
  qrOk : Bool
  genSecret : String
  ts : Nat

/-- In-memory authenticator state: the account map and the backing file. -/
structure AuthState where
  accounts : List (String × String)
  file : Option (List Nat)

/-- `TOTPAuthenticator::load_accounts`: an absent file and a zero-length
file both give the empty map without touching the crypto engine; otherwise
decrypt, UTF-8-decode and parse, wrapping each failure. -/
def load_accounts (env : Env) (file : Option (List Nat)) :
    Except AuthError (List (String × String)) :=
  match file with
  | none => .ok []
  | some bytes =>
    if bytes.isEmpty then .ok []
    else
      match Crypto.decrypt env.c bytes with
      | .error e => .error e
      | .ok pt =>
        match env.utf8Dec pt with
        | none => .error (.InvalidStorage "Invalid UTF-8")
        | some s =>
          match env.deser s with
          | none => .error (.InvalidStorage "Invalid JSON")
          | some m => .ok m

/-- `TOTPAuthenticator::save_accounts`: serialize, encrypt, overwrite the
backing file; each failure propagates and leaves the file as it was. -/
def save_accounts (env : Env) (st : AuthState) : Except AuthError Unit × AuthState :=
  let contents := env.ser st.accounts
  match Crypto.encrypt env.c (strBytes contents) with
  | .error e => (.error e, st)
  | .ok encrypted =>
    if env.canWrite then (.ok (), { st with file := some encrypted })
    else (.error (.StorageFile "Failed to open for writing"), st)

/-- `TOTPAuthenticator::add_account`, in source order: reject a name whose
trim is empty; take the given secret or the generated one; validate it by
`TOTP::new` and a probe `totp.now()`; only then insert into the map, save,
and print the QR code. -/
def add_account (env : Env) (st : AuthState) (name : String) (secretArg : Option String) :
    Except AuthError String × AuthState :=
  if trimIsEmpty name then
    (.error (.InvalidSecret "Account name cannot be empty"), st)
  else
    let secret := secretArg.getD env.genSecret
    match TOTP.new secret with
    | .error e => (.error e, st)
    | .ok totp =>
      match totp.generate env.ts with
      | .error e => (.error e, st)
      | .ok _ =>
        let st1 := { st with
          accounts := (name, secret) :: st.accounts.filter (fun p => p.1 != name) }
        match save_accounts env st1 with
        | (.error e, st2) => (.error e, st2)
        | (.ok _, st2) =>
          if env.qrOk then (.ok secret, st2)
          else (.error (.QrCode "print failed"), st2)

/-- `TOTPAuthenticator::remove_account`: when the name is present, remove
it and call `save_accounts`, discarding its result (`unwrap_or(())` in the
source) and returning `true`; otherwise return `false`. -/
def remove_account (env : Env) (st : AuthState) (name : String) : Bool × AuthState :=
  if (st.accounts.lookup name).isSome then
    let st1 := { st with accounts := st.accounts.filter (fun p => p.1 != name) }
    let r := save_accounts env st1
    (true, r.2)
  else
    (false, st)

/-- `TOTPAuthenticator::get_code`: look up the secret and compute the
current code, mapping every failure to `none`. -/
def get_code (env : Env) (st : AuthState) (name : String) : Option String :=
  match st.accounts.lookup name with
  | none => none
  | some secret =>
    match (TOTP.new secret).bind (fun t => t.generate env.ts) with
    | .error _ => none
    | .ok code => some code

/-! ## Provisioning URI (src/totp.rs `provisioning_uri`), modelling the
`url` crate

`Url::parse("otpauth://totp/")` yields a non-special URL with scheme
`otpauth`, host `totp` and path `/`.  `set_path(name)` runs the WHATWG path
parser: one leading `/` is consumed; the input splits into `/`-separated
segments; each character is percent-encoded with the path percent-encode
set (C0 controls, codes above `0x7e`, space, the double quote, `<`, `>`,
the backtick, `#`, `?` and the curly braces -- note `%` passes through);
single-dot segments (`.` or `%2e`, case-insensitively) are dropped and
double-dot segments pop the previous segment.  `query_pairs_mut()`'s
`append_pair` serializes with `application/x-www-form-urlencoded` rules:
over the UTF-8 bytes, ASCII alphanumerics and `*`, `-`, `.`, `_` are kept,
space becomes `+`, every other byte becomes `%XX` in uppercase hex. -/

/-- UTF-8 encoding of one character. -/
def utf8Bytes (c : Char) : List Nat :=
  let n := c.toNat
  if n < 0x80 then [n]
  else if n < 0x800 then [0xc0 ||| (n >>> 6), 0x80 ||| (n &&& 0x3f)]
  else if n < 0x10000 then
    [0xe0 ||| (n >>> 12), 0x80 ||| ((n >>> 6) &&& 0x3f), 0x80 ||| (n &&& 0x3f)]
  else
    [0xf0 ||| (n >>> 18), 0x80 ||| ((n >>> 12) &&& 0x3f),
     0x80 ||| ((n >>> 6) &&& 0x3f), 0x80 ||| (n &&& 0x3f)]

/-- Uppercase hexadecimal digit. -/
def hexDigitChar (n : Nat) : Char :=
  if n < 10 then Char.ofNat (48 + n) else Char.ofNat (55 + n)

/-- `%XX` percent-encoding of one byte. -/
def pctByte (b : Nat) : String :=
  ⟨['%', hexDigitChar (b / 16), hexDigitChar (b % 16)]⟩

/-- The WHATWG path percent-encode set, by character code. -/
def inPathEncSet (n : Nat) : Bool :=
  n < 0x20 || 0x7e < n || n == 32 || n == 34 || n == 60 || n == 62 ||
  n == 96 || n == 35 || n == 63 || n == 123 || n == 125

/-- Percent-encode one path character. -/
def pathEncChar (c : Char) : String :=
  if inPathEncSet c.toNat then String.join ((utf8Bytes c).map pctByte)
  else String.singleton c

/-- Percent-encode one path segment. -/
def pathEncSeg (seg : List Char) : String :=
  String.join (seg.map pathEncChar)

/-- Split on `/`, keeping empty segments (`""` splits to `[""]`). -/
def splitOnSlash (l : List Char) : List (List Char) :=
  l.foldr
    (fun c acc =>
      if c = '/' then [] :: acc
      else (c :: acc.headD []) :: acc.tail)
    [[]]

/-- ASCII lowercase of one character. -/
def asciiLowerChar (c : Char) : Char :=
  if 65 ≤ c.toNat ∧ c.toNat ≤ 90 then Char.ofNat (c.toNat + 32) else c

/-- ASCII lowercase of a string. -/
def lowerStr (s : String) : String := ⟨s.data.map asciiLowerChar⟩

/-- A WHATWG single-dot path segment: `.` or `%2e`, case-insensitively. -/
def isSingleDotSeg (s : String) : Bool :=
  let t := lowerStr s
  t == "." || t == "%2e"

/-- A WHATWG double-dot path segment. -/
def isDoubleDotSeg (s : String) : Bool :=
  let t := lowerStr s
  t == ".." || t == ".%2e" || t == "%2e." || t == "%2e%2e"

/-- Fold the encoded segments into the URL path, handling dot segments:
a double dot pops the previous segment, a single dot is dropped, and when
the final segment is a dot segment an empty segment is appended, per the
WHATWG path state. -/
def processSegs : List String → List String → List String
  | [], acc => acc
  | [last], acc =>
    if isDoubleDotSeg last then acc.dropLast ++ [""]
    else if isSingleDotSeg last then acc ++ [""]
    else acc ++ [last]
  | seg :: rest, acc =>
    processSegs rest
      (if isDoubleDotSeg seg then acc.dropLast
       else if isSingleDotSeg seg then acc
       else acc ++ [seg])

/-- `Url::set_path` on `otpauth://totp/`: empty input clears the path;
otherwise one leading `/` is consumed and the segments are encoded and
normalized as above. -/
def setPath (name : String) : String :=
  if name = "" then ""
  else
    let l := if name.data.head? = some '/' then name.data.tail else name.data
    let segs := processSegs ((splitOnSlash l).map pathEncSeg) []
    "/" ++ String.intercalate "/" segs

/-- `application/x-www-form-urlencoded` serialization of one byte. -/
def formByte (b : Nat) : String :=
  if b == 32 then "+"
  else if (48 ≤ b ∧ b ≤ 57) ∨ (65 ≤ b ∧ b ≤ 90) ∨ (97 ≤ b ∧ b ≤ 122) ∨
          b = 42 ∨ b = 45 ∨ b = 46 ∨ b = 95 then
    String.singleton (Char.ofNat b)
  else pctByte b

/-- `application/x-www-form-urlencoded` serialization of a string. -/
def formEncode (s : String) : String :=
  String.join (((s.data.map utf8Bytes).flatten).map formByte)

/-- `form_urlencoded::Serializer::append_pair` on the URL's query string. -/
def appendPair (q : Option String) (k v : String) : Option String :=
  let pair := formEncode k ++ "=" ++ formEncode v
  match q with
  | none => some pair
  | some qs => some (qs ++ "&" ++ pair)

/-- `Url::to_string` for this URL: scheme, host, path, then the query. -/
def urlToString (path : String) (query : Option String) : String :=
  "otpauth://totp" ++ path ++ (match query with | none => "" | some q => "?" ++ q)

/-- `TOTP::provisioning_uri`: re-encode the secret in padded Base32, set
the URL path to the account name, and append the four query pairs in
source order (`secret`, `digits`, `period`, `issuer`); total, as in the
source (the `unwrap` is on parsing the constant base URL). -/
def TOTP.provisioning_uri (t : TOTP) (name issuer : String) : String :=
  let secret := b32encode t.secret
  let path := setPath name
  let q1 := appendPair none "secret" secret
  let q2 := appendPair q1 "digits" ⟨decRepr t.digits⟩
  let q3 := appendPair q2 "period" ⟨decRepr t.interval⟩
  let q4 := appendPair q3 "issuer" issuer
  urlToString path q4

/-! ## Definitions taken from the specification's words

These two definitions follow the specification, not the source; they exist
only to be compared against the source-derived definitions above. -/

/-- Modelled from the spec's words: a string is valid padded RFC 4648
Base32 when it is the padded Base32 encoding of some byte sequence,
checked canonically through the codec. -/
def isValidPaddedBase32 (s : String) : Bool :=
  match b32decode s with
  | none => false
  | some bytes => b32encode bytes == s

/-- Modelled from the spec's words: percent-encoding "per standard URI
query rules" read as RFC 3986 -- unreserved characters (alphanumerics and
`-`, `.`, `_`, `~`) kept, every other UTF-8 byte percent-encoded. -/
def pctQueryStr (s : String) : String :=
  String.join (((s.data.map utf8Bytes).flatten).map (fun b =>
    if (48 ≤ b ∧ b ≤ 57) ∨ (65 ≤ b ∧ b ≤ 90) ∨ (97 ≤ b ∧ b ≤ 122) ∨
       b = 45 ∨ b = 46 ∨ b = 95 ∨ b = 126 then
      String.singleton (Char.ofNat b)
    else pctByte b))

/-- Modelled from the spec's words: the URI template
`otpauth://totp/<accountName>?secret=<Base32>&digits=6&period=30&issuer=<issuer>`
with the name and issuer percent-encoded per standard URI query rules and
the secret rendered as the literal padded Base32 text. -/
def specProvisioningUri (t : TOTP) (name issuer : String) : String :=
  "otpauth://totp/" ++ pctQueryStr name ++ "?secret=" ++ b32encode t.secret ++
  "&digits=6&period=30&issuer=" ++ pctQueryStr issuer

/-! ## Concrete instances for witnesses and counterexamples -/

/-- A small concrete instance of the `age` primitive contracts:
Diffie-Hellman is exponentiation modulo the prime 251 (commutative by the
power laws), the AEAD prepends its key and strips it back off. -/
def demoPrim : AgePrim where
  dh s p := p ^ s % 251
  base := 6
  wrapKey shared epk pk := shared + 1000 * epk + 1000000 * pk
  aeadSeal k m := k :: m
  aeadOpen k l :=
    match l with
    | [] => none
    | h :: t => if h = k then some t else none
  aead_round := by intro k m; simp
  dh_comm := by
    intro a b
    show (6 ^ b % 251) ^ a % 251 = (6 ^ a % 251) ^ b % 251
    rw [← Nat.pow_mod, ← Nat.pow_mod, ← pow_mul, ← pow_mul, Nat.mul_comm]

/-- A concrete crypto context whose keyring stores a parseable identity. -/
def demoCtx : CryptoCtx where
  prim := demoPrim
  kr := ⟨some "id7", true⟩
  parseId := fun s => if s = "id7" then some 7 else none
  eph := 3

/-- A concrete working environment over `demoCtx`. -/
def demoEnv : Env where
  c := demoCtx
  ser := fun _ => "serialized"
  deser := fun _ => none
  utf8Dec := fun _ => none
  canWrite := true
  qrOk := true
  genSecret := "GEZDGNBVGY3TQOJQGEZDGNBVGY3TQOJQ"
  ts := 0

/-- A concrete environment whose keyring holds no identity, so that
encryption -- and with it `save_accounts` -- fails. -/
def brokenEnv : Env :=
  { demoEnv with c := { demoCtx with kr := ⟨none, true⟩ } }

/-! ## Helper lemmas -/

/-- SHA-1 always produces a 20-byte digest. -/
theorem sha1_length (msg : List Nat) : (sha1 msg).length = 20 := by
  simp [sha1, word32bytes]

/-- The decimal digit characters are digits. -/
theorem decDigitChar_isDigit (n : Nat) (h : n < 10) : (decDigitChar n).isDigit = true := by
  interval_cases n <;> decide

/-- Every character produced by `decReprAux` is a decimal digit. -/
theorem decReprAux_digits (fuel n : Nat) : (decReprAux fuel n).all Char.isDigit = true := by
  induction fuel generalizing n with
  | zero => rfl
  | succ f ih =>
    simp only [decReprAux]
    by_cases h10 : n < 10
    · simp [h10, decDigitChar_isDigit n h10]
    · simp [h10, List.all_append, ih,
        decDigitChar_isDigit (n % 10) (Nat.mod_lt _ (by norm_num))]

/-- With enough fuel, a number below `10 ^ k` has at most `k` digits. -/
theorem decReprAux_length_le (fuel n k : Nat) (hf : n < fuel) (hk : 0 < k)
    (hn : n < 10 ^ k) : (decReprAux fuel n).length ≤ k := by
  induction fuel generalizing n k with
  | zero => omega
  | succ f ih =>
    simp only [decReprAux]
    by_cases h10 : n < 10
    · simp [h10]; omega
    · rw [if_neg h10, List.length_append, List.length_singleton]
      have hk2 : 2 ≤ k := by
        by_contra hcon
        push_neg at hcon
        have hk1 : k = 1 := by omega
        rw [hk1, pow_one] at hn
        omega
      have hf2 : n / 10 < f := by omega
      have hdiv : n / 10 < 10 ^ (k - 1) := by
        have hpow : 10 ^ k = 10 ^ (k - 1) * 10 := by
          conv_lhs => rw [show k = (k - 1) + 1 by omega]
          rw [pow_succ]
        rw [Nat.div_lt_iff_lt_mul (by norm_num)]
        omega
      have := ih (n / 10) (k - 1) hf2 (by omega) hdiv
      omega

/-- The zero-padded 6-digit rendering of a number below `10 ^ 6` has length
6 and consists of decimal digits. -/
theorem zeroPad_decRepr_spec (m : Nat) (hm : m < 10 ^ 6) :
    (String.mk (zeroPad 6 (decRepr m))).length = 6 ∧
    (String.mk (zeroPad 6 (decRepr m))).data.all Char.isDigit = true := by
  have hlen : (decRepr m).length ≤ 6 :=
    decReprAux_length_le (m + 1) m 6 (by omega) (by norm_num) hm
  constructor
  · simp only [String.length_mk, zeroPad, List.length_append, List.length_replicate]
    omega
  · show (zeroPad 6 (decRepr m)).all Char.isDigit = true
    simp [zeroPad, List.all_append, decRepr, decReprAux_digits]

/-- `save_accounts` never changes the account map, only the file. -/
theorem save_accounts_accounts (env : Env) (st : AuthState) :
    (save_accounts env st).2.accounts = st.accounts := by
  unfold save_accounts
  rcases hE : Crypto.encrypt env.c (strBytes (env.ser st.accounts)) with e | enc
  · simp [hE]
  · simp only [hE]
    cases hw : env.canWrite <;> simp [hw]

/-- Looking up a key in a list filtered on that very key gives nothing. -/
theorem lookup_filter_self (l : List (String × String)) (k : String) :
    (l.filter (fun p => p.1 != k)).lookup k = none := by
  induction l with
  | nil => rfl
  | cons a t ih =>
    obtain ⟨ka, va⟩ := a
    by_cases hak : ka = k
    · simp [List.filter_cons, hak, ih]
    · simp only [List.filter_cons]
      have hne : (ka != k) = true := by simp [hak]
      rw [if_pos hne, List.lookup_cons]
      have : (k == ka) = false := by
        simp [beq_eq_false_iff_ne]
        exact fun hkk => hak hkk.symm
      rw [this]
      exact ih

/-! ## The claims -/

/-- C1: for the ASCII secret `12345678901234567890` re-encoded in padded
RFC 4648 Base32 (which is `GEZDGNBVGY3TQOJQGEZDGNBVGY3TQOJQ`), the
code-generation function (counter `floor(t/30)` as 8-byte big-endian,
HMAC-SHA1, RFC 4226 dynamic truncation with the top bit masked, value mod
`10^6` zero-padded to 6 digits) returns exactly `287082` at `t = 59`,
`081804` at `t = 1111111109` and `005924` at `t = 1234567890`. -/
theorem c1_rfc6238_vectors :
    b32encode (strBytes "12345678901234567890") = "GEZDGNBVGY3TQOJQGEZDGNBVGY3TQOJQ" ∧
    (TOTP.new "GEZDGNBVGY3TQOJQGEZDGNBVGY3TQOJQ").bind (fun t => t.generate 59) =
      .ok "287082" ∧
    (TOTP.new "GEZDGNBVGY3TQOJQGEZDGNBVGY3TQOJQ").bind (fun t => t.generate 1111111109) =
      .ok "081804" ∧
    (TOTP.new "GEZDGNBVGY3TQOJQGEZDGNBVGY3TQOJQ").bind (fun t => t.generate 1234567890) =
      .ok "005924" :=
  ⟨by rfl, by rfl, by rfl, by rfl⟩

/-- C2: whenever the credential store holds a parseable identity, the
crypto engine's encrypt/decrypt pair is a round trip: for every byte
sequence `p` and every ephemeral randomness, `decrypt (encrypt p)` succeeds
and returns exactly `p`. -/
theorem c2_encrypt_decrypt_roundtrip (c : CryptoCtx) (s : String) (ident : Nat)
    (p : List Nat) (h1 : c.kr.entry = some s) (h2 : c.parseId s = some ident) :
    ∃ ct, Crypto.encrypt c p = .ok ct ∧ Crypto.decrypt c ct = .ok p := by
  have hl : Crypto.load_key c = .ok ident := by
    simp [Crypto.load_key, h1, h2]
  refine ⟨ageEncrypt c.prim (c.prim.dh ident c.prim.base) c.eph p, ?_, ?_⟩
  · simp [Crypto.encrypt, hl]
  · simp only [Crypto.decrypt, hl, ageEncrypt, ageDecrypt]
    rw [c.prim.dh_comm ident c.eph, c.prim.aead_round]

/-- Witness for C2 at a concrete context, plaintext and randomness. -/
theorem c2_witness :
    demoCtx.kr.entry = some "id7" ∧ demoCtx.parseId "id7" = some 7 ∧
    ∃ ct, Crypto.encrypt demoCtx [1, 2, 3] = .ok ct ∧
      Crypto.decrypt demoCtx ct = .ok [1, 2, 3] :=
  ⟨rfl, rfl, c2_encrypt_decrypt_roundtrip demoCtx "id7" 7 [1, 2, 3] rfl rfl⟩

/-- C3, counterexample: `"MY"` is not valid padded RFC 4648 Base32 (the
padded encoding of its decoding is `MY======`, not `MY`), yet
`add_account` accepts it -- the crate's decoder ignores missing padding --
so the account is inserted, persisted and returned. -/
theorem c3_counterexample :
    isValidPaddedBase32 "MY" = false ∧
    (add_account demoEnv ⟨[], none⟩ "x" (some "MY")).1 = .ok "MY" ∧
    ((add_account demoEnv ⟨[], none⟩ "x" (some "MY")).2.accounts.lookup "x") =
      some "MY" ∧
    (add_account demoEnv ⟨[], none⟩ "x" (some "MY")).2.file ≠ none :=
  ⟨by rfl, by rfl, by rfl, by intro h; cases h⟩

/-- C3, amended: when the Base32 decoder rejects the secret text (a
character outside the crate's lenient alphabet, or non-ASCII input),
`add_account` fails with `Base32DecodeError` (the spec's
`InvalidEncoding`) and the state -- mapping and backing file -- is exactly
unchanged, so nothing is persisted and the name is only present if it
already was. -/
theorem c3_invalid_secret_rejected (env : Env) (st : AuthState) (name sec : String)
    (hn : trimIsEmpty name = false) (h : b32decode sec = none) :
    add_account env st name (some sec) = (.error .Base32DecodeError, st) := by
  simp [add_account, hn, TOTP.new, h]

/-- Witness for C3's amended theorem at the spec's own example input. -/
theorem c3_witness :
    trimIsEmpty "x" = false ∧ b32decode "not-base32!!" = none ∧
    add_account demoEnv ⟨[], none⟩ "x" (some "not-base32!!") =
      (.error .Base32DecodeError, ⟨[], none⟩) :=
  ⟨rfl, rfl, c3_invalid_secret_rejected demoEnv ⟨[], none⟩ "x" "not-base32!!" rfl rfl⟩

/-- C4, counterexample: with a present name but a failing `save()` (the
keyring holds no identity, so encryption fails), `remove_account` still
returns `true` and surfaces no error: the save failure is discarded by
`unwrap_or(())`, not propagated. -/
theorem c4_counterexample :
    remove_account brokenEnv ⟨[("a", "MY")], none⟩ "a" = (true, ⟨[], none⟩) ∧
    (save_accounts brokenEnv ⟨[], none⟩).1 = .error (.Keyring "NoEntry") :=
  ⟨by rfl, by rfl⟩

/-- C4, amended: `remove_account` on a present name removes the entry and
calls `save_accounts` before returning, but returns `true` whatever the
save result -- the save error is silently discarded (`unwrap_or(())` in
the source), never propagated to the caller. -/
theorem c4_remove_swallows_save_error (env : Env) (st : AuthState) (name : String)
    (h : (st.accounts.lookup name).isSome = true) :
    remove_account env st name =
      (true, (save_accounts env
        { st with accounts := st.accounts.filter (fun p => p.1 != name) }).2) ∧
    ((remove_account env st name).2.accounts.lookup name) = none := by
  have h1 : remove_account env st name =
      (true, (save_accounts env
        { st with accounts := st.accounts.filter (fun p => p.1 != name) }).2) := by
    simp only [remove_account, h, if_true]
  refine ⟨h1, ?_⟩
  rw [h1]
  show ((save_accounts env _).2.accounts.lookup name) = none
  rw [save_accounts_accounts]
  exact lookup_filter_self st.accounts name

/-- Witness for C4's amended theorem: a present name in an environment
whose save fails; removal still reports `true` and the name is gone. -/
theorem c4_witness :
    ((([("a", "MY")] : List (String × String)).lookup "a").isSome = true) ∧
    (remove_account brokenEnv ⟨[("a", "MY")], none⟩ "a" =
      (true, (save_accounts brokenEnv
        { accounts := [("a", "MY")].filter (fun p => p.1 != "a"), file := none }).2) ∧
     ((remove_account brokenEnv ⟨[("a", "MY")], none⟩ "a").2.accounts.lookup "a") = none) :=
  ⟨rfl, c4_remove_swallows_save_error brokenEnv ⟨[("a", "MY")], none⟩ "a" rfl⟩

/-- C5: `load_accounts` returns the empty vault, not an error, both for an
absent file and for an existing zero-length file; the statement holds for
every environment, including ones whose decryption always fails, showing
decryption is not attempted in either case. -/
theorem c5_load_empty_vault (env : Env) :
    load_accounts env none = .ok [] ∧ load_accounts env (some []) = .ok [] :=
  ⟨rfl, rfl⟩

/-- C6: when an identity is already stored, `Crypto::init` fails with
`KeyExists` (the spec's `IdentityAlreadyExists`) and leaves the keyring
unchanged (no new key material); consequently a second `init` right after
a successful one fails with `KeyExists`. -/
theorem c6_init_requires_absent_identity (kr : Keyring) (s gen gen2 : String) :
    (kr.entry = some s → Crypto.init kr gen = (.error .KeyExists, kr)) ∧
    ((Crypto.init kr gen).1 = .ok () →
      (Crypto.init (Crypto.init kr gen).2 gen2).1 = .error .KeyExists) := by
  constructor
  · intro h
    simp [Crypto.init, h]
  · intro h
    rcases hk : kr.entry with _ | v
    · simp only [Crypto.init, hk] at h ⊢
      cases hs : kr.setOk
      · simp [hs] at h
      · simp [hs]
    · simp [Crypto.init, hk] at h

/-- Witness for C6 at concrete keyrings for both conjuncts. -/
theorem c6_witness :
    Crypto.init ⟨some "k0", true⟩ "g" = (.error .KeyExists, ⟨some "k0", true⟩) ∧
    (Crypto.init (Crypto.init ⟨none, true⟩ "g").2 "g2").1 = .error .KeyExists :=
  ⟨(c6_init_requires_absent_identity ⟨some "k0", true⟩ "k0" "g" "g2").1 rfl,
   (c6_init_requires_absent_identity ⟨none, true⟩ "x" "g" "g2").2 rfl⟩

/-- C7: `add_account` with a name whose trimmed form is empty fails with
the empty-name error (the spec's `EmptyName`; in the source,
`InvalidSecret "Account name cannot be empty"`) before anything else, so
the state is exactly unchanged: the mapping is untouched, and if no
backing file existed none is created. -/
theorem c7_add_empty_name (env : Env) (st : AuthState) (name : String)
    (secretArg : Option String) (h : trimIsEmpty name = true) :
    add_account env st name secretArg =
      (.error (.InvalidSecret "Account name cannot be empty"), st) := by
  simp [add_account, h]

/-- Witness for C7 at the empty name on a fileless vault. -/
theorem c7_witness :
    trimIsEmpty "" = true ∧
    add_account demoEnv ⟨[], none⟩ "" (some "MY") =
      (.error (.InvalidSecret "Account name cannot be empty"), ⟨[], none⟩) :=
  ⟨rfl, c7_add_empty_name demoEnv ⟨[], none⟩ "" (some "MY") rfl⟩

/-- C8: the generated code depends on the timestamp only through its
30-second window: if `t1 / 30 = t2 / 30` then the codes agree, for every
secret. -/
theorem c8_same_window_same_code (s : List Nat) (t1 t2 : Nat)
    (h : t1 / 30 = t2 / 30) :
    TOTP.generate ⟨s, 6, 30⟩ t1 = TOTP.generate ⟨s, 6, 30⟩ t2 := by
  simp only [TOTP.generate]
  rw [h]

/-- Witness for C8: timestamps 0 and 29 share a window for a concrete
secret. -/
theorem c8_witness :
    (0 : Nat) / 30 = 29 / 30 ∧
    TOTP.generate ⟨[1, 2, 3], 6, 30⟩ 0 = TOTP.generate ⟨[1, 2, 3], 6, 30⟩ 29 :=
  ⟨by decide, c8_same_window_same_code [1, 2, 3] 0 29 (by decide)⟩

/-- C9, counterexample: the specification's template renders the secret's
padded Base32 literally in the query, but the source's query serializer
form-urlencodes it, turning each padding `'='` into `%3D`: already for the
one-byte secret `0x66` (Base32 `MY======`) the produced URI differs from
the template. -/
theorem c9_counterexample :
    TOTP.provisioning_uri ⟨[102], 6, 30⟩ "A" "B" ≠
      specProvisioningUri ⟨[102], 6, 30⟩ "A" "B" := by
  have h1 : TOTP.provisioning_uri ⟨[102], 6, 30⟩ "A" "B" =
      "otpauth://totp/A?secret=MY%3D%3D%3D%3D%3D%3D&digits=6&period=30&issuer=B" := by rfl
  have h2 : specProvisioningUri ⟨[102], 6, 30⟩ "A" "B" =
      "otpauth://totp/A?secret=MY======&digits=6&period=30&issuer=B" := by rfl
  rw [h1, h2]
  decide

/-- C9, amended: for every secret and all inputs, `provisioning_uri` is
total and returns exactly
`otpauth://totp<path>?secret=<S>&digits=6&period=30&issuer=<I>` with the
query parameters in that order, where `<path>` is the account name
rendered by the URL path serializer (path percent-encode set, `/`-separated
segments, dot segments normalized), and `<S>` and `<I>` are the padded
Base32 re-encoding of the secret and the issuer, both serialized by the
form-urlencoded query writer (space as `+`, padding `=` as `%3D`). -/
theorem c9_uri_shape (s : List Nat) (name issuer : String) :
    TOTP.provisioning_uri ⟨s, 6, 30⟩ name issuer =
      "otpauth://totp" ++ setPath name ++ "?secret=" ++ formEncode (b32encode s) ++
      "&digits=6&period=30&issuer=" ++ formEncode issuer := by
  apply String.ext
  simp only [TOTP.provisioning_uri, appendPair, urlToString, String.data_append]
  rw [show formEncode "secret" = "secret" from rfl,
      show formEncode "digits" = "digits" from rfl,
      show formEncode "period" = "period" from rfl,
      show formEncode "issuer" = "issuer" from rfl,
      show (String.mk (decRepr (6 : Nat)) : String) = "6" from rfl,
      show (String.mk (decRepr (30 : Nat)) : String) = "30" from rfl,
      show formEncode "6" = "6" from rfl,
      show formEncode "30" = "30" from rfl]
  simp [String.data_append, List.append_assoc]

/-- C10: code generation is total for every secret byte string and every
timestamp: the HMAC-SHA1 digest has exactly 20 bytes, the dynamic
truncation offset (low nibble of the last byte) keeps all four indexed
positions within the digest, and the function returns `Ok` with a
6-character decimal string. -/
theorem c10_generate_total (s : List Nat) (t : Nat) :
    (hmacSha1 s (u64be (t / 30))).length = 20 ∧
    ((hmacSha1 s (u64be (t / 30))).getD 19 0 &&& 0xf) + 3 < 20 ∧
    ∃ code, TOTP.generate ⟨s, 6, 30⟩ t = .ok code ∧
      code.length = 6 ∧ code.data.all Char.isDigit = true := by
  refine ⟨?_, ?_, ?_⟩
  · simp only [hmacSha1]
    exact sha1_length _
  · have h := Nat.and_le_right (n := (hmacSha1 s (u64be (t / 30))).getD 19 0) (m := 0xf)
    omega
  · refine ⟨_, rfl, ?_, ?_⟩
    · exact (zeroPad_decRepr_spec _ (Nat.mod_lt _ (by norm_num))).1
    · exact (zeroPad_decRepr_spec _ (Nat.mod_lt _ (by norm_num))).2
